import Mathlib

/-!
# Guide-hair placement: `Triangle` and the `HairObject` constructors

A shallow embedding of `src/hairCommon.h` (`Triangle`, `MIN`) and `src/hairobject.cpp`
(the three `HairObject` constructors and `setAttributes`).

Conventions of the embedding.

* A `float` value is the rational it denotes. Every `float` operation is the exact
  operation followed by the rounding `Env.fl` of the environment; a conversion of an `int`
  or of a `double` literal to `float` is that rounding too. `fl32` is the rounding of
  IEEE binary32 (nearest, ties to even; infinities and NaN are not modelled) and
  `Env.exact` replaces the rounding by the identity: exact arithmetic.
* An `int` value is an integer; the conversion `(int) x` truncates toward zero inside
  the range of a 32-bit `int`. Outside of it the conversion is undefined in C++; the
  embedding takes `INT_MIN`, the result of the x86 conversion instruction.
* The C library is part of the environment `Env`: `RAND_MAX`, `sqrt`, and the values
  `rand()` returns, call by call. A function that calls `rand()` takes the number of
  calls made so far and the caller advances it.
* Declarations that live in headers outside the source files (the default arguments of
  `setAttributes`, the class `Hair`, Qt's `QImage`/`QColor`/`QPoint`, glm's vectors) are
  modelled by what the source uses of them.
-/

namespace HairSim

/-! ## glm vectors -/

/-- The type `glm::vec2`. -/
structure Vec2 where
  x : ℚ
  y : ℚ
  deriving DecidableEq, Repr

/-- The type `glm::vec3`. -/
structure Vec3 where
  x : ℚ
  y : ℚ
  z : ℚ
  deriving DecidableEq, Repr

/-! ## The environment -/

/-- The tunable rendering attributes, in the order of the parameters of the six-argument
`HairObject::setAttributes`. -/
structure Tunables where
  color : Vec3
  numGroupHairs : ℤ
  hairGroupSpread : ℚ
  hairRadius : ℚ
  noiseAmplitude : ℚ
  numSplineVertices : ℤ
  deriving DecidableEq

/-- What the code takes from outside the source files: the rounding `fl` of a real value
to `float`, the C library's `RAND_MAX`, `sqrt` (on `float`) and the sequence of values
returned by `rand()` (`rand k` is the value of call number `k`), and the default
arguments of `setAttributes` declared in `hairobject.h`. -/
structure Env where
  RAND_MAX : ℕ
  sqrt : ℚ → ℚ
  rand : ℕ → ℕ
  defaults : Tunables
  fl : ℚ → ℚ

/-- The environment `E` with exact arithmetic: no rounding. -/
def Env.exact (E : Env) : Env := { E with fl := fun x => x }

/-- The `float` sum `a + b`. -/
def Env.fadd (E : Env) (a b : ℚ) : ℚ := E.fl (a + b)

/-- The `float` difference `a - b`. -/
def Env.fsub (E : Env) (a b : ℚ) : ℚ := E.fl (a - b)

/-- The `float` product `a * b`. -/
def Env.fmul (E : Env) (a b : ℚ) : ℚ := E.fl (a * b)

/-- The `float` quotient `a / b`. -/
def Env.fdiv (E : Env) (a b : ℚ) : ℚ := E.fl (a / b)

/-- The conversion of an `int` to `float`. -/
def Env.ofInt (E : Env) (n : ℤ) : ℚ := E.fl (n : ℚ)

/-- The expression `rand() / (float) RAND_MAX` evaluated at call number `k`: both
integers are converted to `float`, then divided. -/
def Env.draw (E : Env) (k : ℕ) : ℚ := E.fdiv (E.ofInt (E.rand k)) (E.ofInt E.RAND_MAX)

namespace Vec3

/-- The difference `a - b` of two `glm::vec3`, component by component. -/
def sub (E : Env) (a b : Vec3) : Vec3 := ⟨E.fsub a.x b.x, E.fsub a.y b.y, E.fsub a.z b.z⟩

/-- The function `glm::cross`:
`(x.y * y.z - y.y * x.z, x.z * y.x - y.z * x.x, x.x * y.y - y.x * x.y)`. -/
def cross (E : Env) (a b : Vec3) : Vec3 :=
  ⟨E.fsub (E.fmul a.y b.z) (E.fmul b.y a.z),
   E.fsub (E.fmul a.z b.x) (E.fmul b.z a.x),
   E.fsub (E.fmul a.x b.y) (E.fmul b.x a.y)⟩

/-- The function `glm::dot`: the sum, left to right, of the three products. -/
def dot (E : Env) (a b : Vec3) : ℚ :=
  E.fadd (E.fadd (E.fmul a.x b.x) (E.fmul a.y b.y)) (E.fmul a.z b.z)

/-- The exact scalar multiple `s * a`. -/
def smul (s : ℚ) (a : Vec3) : Vec3 := ⟨s * a.x, s * a.y, s * a.z⟩

/-- The exact sum `a + b`. -/
def add (a b : Vec3) : Vec3 := ⟨a.x + b.x, a.y + b.y, a.z + b.z⟩

end Vec3

namespace Vec2

/-- The exact scalar multiple `s * a`. -/
def smul (s : ℚ) (a : Vec2) : Vec2 := ⟨s * a.x, s * a.y⟩

/-- The exact sum `a + b`. -/
def add (a b : Vec2) : Vec2 := ⟨a.x + b.x, a.y + b.y⟩

end Vec2

/-- One row of a glm matrix-vector product: `a * x + b * y + c * z` in `float`, summed
left to right. -/
def Env.row (E : Env) (a b c : ℚ) (v : Vec3) : ℚ :=
  E.fadd (E.fadd (E.fmul a v.x) (E.fmul b v.y)) (E.fmul c v.z)

/-- The product `glm::mat3(c0, c1, c2) * v`: the matrix is built from its three columns
and row `r` of the result is `c0[r]*v.x + c1[r]*v.y + c2[r]*v.z`. -/
def mat3MulVec (E : Env) (c0 c1 c2 : Vec3) (v : Vec3) : Vec3 :=
  ⟨E.row c0.x c1.x c2.x v, E.row c0.y c1.y c2.y v, E.row c0.z c1.z c2.z v⟩

/-- The product `glm::mat3x2(c0, c1, c2) * v` (three columns of two rows). -/
def mat3x2MulVec (E : Env) (c0 c1 c2 : Vec2) (v : Vec3) : Vec2 :=
  ⟨E.row c0.x c1.x c2.x v, E.row c0.y c1.y c2.y v⟩

/-- The function `glm::length`: `sqrt(dot(v, v))`. -/
def Env.length (E : Env) (v : Vec3) : ℚ := E.sqrt (Vec3.dot E v v)

/-! ## `hairCommon.h` -/

/-- The macro `MIN(x, y)`, on two values already converted to `float`. -/
def MIN (x y : ℚ) : ℚ := if x < y then x else y

/-- The struct `Triangle`. -/
structure Triangle where
  v1 : Vec3
  v2 : Vec3
  v3 : Vec3
  uv1 : Vec2
  uv2 : Vec2
  uv3 : Vec2
  n1 : Vec3
  n2 : Vec3
  n3 : Vec3
  deriving DecidableEq

/-- The method `Triangle::area`: `glm::length(glm::cross(v3 - v1, v2 - v1)) / 2.f`. -/
def Triangle.area (E : Env) (t : Triangle) : ℚ :=
  E.fdiv (E.length (Vec3.cross E (Vec3.sub E t.v3 t.v1) (Vec3.sub E t.v2 t.v1))) 2

/-- The local `randPtBary` of `Triangle::randPoint`, computed from the two calls of
`rand()` numbered `k` and `k + 1`. -/
def randPtBary (E : Env) (k : ℕ) : Vec3 :=
  let t := E.sqrt (E.draw k)
  let x := E.fsub 1 t
  let y := E.draw (k + 1)
  let z := E.fsub (E.fsub 1 x) y
  ⟨x, y, z⟩

/-- The three outputs of `Triangle::randPoint`. -/
structure Sample where
  pos : Vec3
  uv : Vec2
  normal : Vec3
  deriving DecidableEq

/-- The method `Triangle::randPoint`; it makes the calls of `rand()` numbered `k` and
`k + 1`. -/
def Triangle.randPoint (E : Env) (t : Triangle) (k : ℕ) : Sample :=
  let b := randPtBary E k
  { uv := mat3x2MulVec E t.uv1 t.uv2 t.uv3 b
    pos := mat3MulVec E t.v1 t.v2 t.v3 b
    normal := mat3MulVec E t.n1 t.n2 t.n3 b }

/-! ## Conversions to `int` and the hair count of a triangle -/

/-- The conversion `(int) x` of a `float` to a 32-bit `int`: truncation toward zero when
the result fits, `INT_MIN` otherwise. -/
def toInt (x : ℚ) : ℤ :=
  if -2147483649 < x ∧ x < 2147483648 then (if 0 ≤ x then ⌊x⌋ else ⌈x⌉)
  else -2147483648

/-- The local `numHairs` of the growth-map constructor:
`(int) (_hairsPerUnitArea * t.area() + rand() / (float)RAND_MAX)`, as a function of the
density `d`, the area `A` and the draw `u`. -/
def numHairs (E : Env) (d A u : ℚ) : ℤ :=
  toInt (E.fadd (E.fmul d A) u)

/-! ## Qt: `QPoint`, `QColor`, `QImage` -/

/-- The type `QPoint`. -/
structure QPoint where
  x : ℤ
  y : ℤ
  deriving DecidableEq, Repr

/-- A pixel as `QColor(image.pixel(p))` sees it: its red, green and blue channels. -/
structure QColor where
  red : ℕ
  green : ℕ
  blue : ℕ
  deriving DecidableEq, Repr

/-- The method `QColor::value`: the V of HSV, the largest channel. -/
def QColor.value (c : QColor) : ℕ := max c.red (max c.green c.blue)

/-- A `QImage` once read from its file: its size and its pixels. An image that could
not be read has width 0. -/
structure QImage where
  width : ℕ
  height : ℕ
  pixel : QPoint → QColor

/-- The method `QImage::valid`: the point lies in the image rectangle. -/
def QImage.valid (image : QImage) (p : QPoint) : Bool :=
  decide (0 ≤ p.x) && decide (p.x < image.width) &&
    decide (0 ≤ p.y) && decide (p.y < image.height)

/-! ## `hairobject.cpp` -/

/-- Modelled from the spec: the class `Hair`, whose files `hair.h` and `hair.cpp` are not
among the sources. A guide hair is recorded by the four arguments `Hair(...)` is created
with, `create(numVertices, segmentSpacing, rootPosition, rootDirection)`. -/
structure Hair where
  numVertices : ℕ
  segmentSpacing : ℚ
  rootPosition : Vec3
  rootDirection : Vec3
  deriving DecidableEq

/-- The class `HairObject`, with the members `hairobject.cpp` and `glwidget.cpp` read and
write; `m_simulation` is the address of the simulation, `none` for `NULL`. -/
structure HairObject where
  m_numGuideHairs : ℤ
  m_guideHairs : List Hair
  m_simulation : Option ℕ
  m_color : Vec3
  m_numGroupHairs : ℤ
  m_hairGroupSpread : ℚ
  m_hairRadius : ℚ
  m_noiseAmplitude : ℚ
  m_numSplineVertices : ℤ
  deriving DecidableEq

/-- The six-argument `HairObject::setAttributes`. -/
def HairObject.setAttributes6 (o : HairObject) (color : Vec3) (numGroupHairs : ℤ)
    (hairGroupSpread hairRadius noiseAmplitude : ℚ) (numSplineVertices : ℤ) : HairObject :=
  { o with
    m_color := color
    m_numGroupHairs := numGroupHairs
    m_hairGroupSpread := hairGroupSpread
    m_hairRadius := hairRadius
    m_noiseAmplitude := noiseAmplitude
    m_numSplineVertices := numSplineVertices }

/-- The call `setAttributes()`: every argument takes its default. -/
def HairObject.setAttributes0 (E : Env) (o : HairObject) : HairObject :=
  o.setAttributes6 E.defaults.color E.defaults.numGroupHairs E.defaults.hairGroupSpread
    E.defaults.hairRadius E.defaults.noiseAmplitude E.defaults.numSplineVertices

/-- The method `HairObject::setAttributes(HairObject *_oldObject)`; `none` is `NULL`. -/
def HairObject.setAttributes (E : Env) (o : HairObject) (oldObject : Option HairObject) :
    HairObject :=
  match oldObject with
  | none => o.setAttributes0 E
  | some old =>
    o.setAttributes6 old.m_color old.m_numGroupHairs old.m_hairGroupSpread
      old.m_hairRadius old.m_noiseAmplitude old.m_numSplineVertices

/-- The hair appended by iteration `i` of the loop shared by the count and the copy
constructor: `new Hair(20, 1, glm::vec3(i + 0.25, 1, 0), glm::vec3(1, 0, 0))`; the
`double` value `i + 0.25` becomes a `float` component. -/
def defaultHair (E : Env) (i : ℕ) : Hair :=
  { numVertices := 20
    segmentSpacing := 1
    rootPosition := ⟨E.fl ((i : ℚ) + 1 / 4), 1, 0⟩
    rootDirection := ⟨1, 0, 0⟩ }

/-- The loop `for (int i = 0; i < m_numGuideHairs; i++) m_guideHairs.append(...)`,
started on an empty list: it runs `m_numGuideHairs` times, not at all when that is
negative. -/
def defaultHairs (E : Env) (numGuideHairs : ℤ) : List Hair :=
  (List.range numGuideHairs.toNat).map (defaultHair E)

/-- An object before its constructor body runs: the list is empty, and the other members
hold whatever their storage holds; only `m_numGuideHairs` can survive a constructor
unassigned, so its value `stale` is the one that is kept explicit. -/
def HairObject.raw (stale : ℤ) : HairObject :=
  { m_numGuideHairs := stale
    m_guideHairs := []
    m_simulation := none
    m_color := ⟨0, 0, 0⟩
    m_numGroupHairs := 0
    m_hairGroupSpread := 0
    m_hairRadius := 0
    m_noiseAmplitude := 0
    m_numSplineVertices := 0 }

/-- The constructor `HairObject(int _numGuideHairs, Simulation *_simulation)`. -/
def HairObject.ofCount (E : Env) (numGuideHairs : ℤ) (simulation : Option ℕ) : HairObject :=
  let o := { HairObject.raw 0 with m_numGuideHairs := numGuideHairs }
  let o := { o with m_guideHairs := o.m_guideHairs ++ defaultHairs E o.m_numGuideHairs }
  let o := o.setAttributes0 E
  { o with m_simulation := simulation }

/-- The constructor `HairObject(HairObject *_oldObject, Simulation *_simulation)`. -/
def HairObject.ofOld (E : Env) (oldObject : HairObject) (simulation : Option ℕ) :
    HairObject :=
  let o := { HairObject.raw 0 with m_numGuideHairs := oldObject.m_numGuideHairs }
  let o := { o with m_guideHairs := o.m_guideHairs ++ defaultHairs E o.m_numGuideHairs }
  let o := o.setAttributes E (some oldObject)
  { o with m_simulation := simulation }

/-- Modelled from the spec: the class `ObjMesh`, whose file `objmesh.h` is not among the
sources; the surface is an ordered collection of triangles, read by the constructor as
`_mesh->triangles`. -/
structure ObjMesh where
  triangles : List Triangle

/-- The texel `QPoint(uv.x * image.width(), (1 - uv.y) * image.height())`: the sizes are
converted to `float`, the products and the difference are `float` operations, and both
coordinates are converted to `int`. -/
def texel (E : Env) (image : QImage) (uv : Vec2) : QPoint :=
  ⟨toInt (E.fmul uv.x (E.ofInt image.width)),
   toInt (E.fmul (E.fsub 1 uv.y) (E.ofInt image.height))⟩

/-- The clamp `glm::vec2(MIN(uv.x, 0.999), MIN(uv.y, 0.999))`; the macro stores 0.999
in a `float`. -/
def clampUV (E : Env) (uv : Vec2) : Vec2 :=
  ⟨MIN uv.x (E.fl (999 / 1000)), MIN uv.y (E.fl (999 / 1000))⟩

/-- One iteration of the inner loop of the growth-map constructor, on triangle `t`; the
state is the list `m_guideHairs` and the number of calls of `rand()` made so far. -/
def hairBody (E : Env) (image : QImage) (t : Triangle) (st : List Hair × ℕ) :
    List Hair × ℕ :=
  let s := t.randPoint E st.2
  let uv := clampUV E s.uv
  let p := texel E image uv
  if !image.valid p then (st.1, st.2 + 2)
  else
    let hairGrowth := image.pixel p
    if hairGrowth.value = 0 then (st.1, st.2 + 2)
    else (st.1 ++ [⟨20, 2 / 5, s.pos, s.normal⟩], st.2 + 2)

/-- The inner loop `for (int hair = 0; hair < numHairs; hair++)`, as `n` iterations. -/
def hairLoop (E : Env) (image : QImage) (t : Triangle) : ℕ → List Hair × ℕ → List Hair × ℕ
  | 0, st => st
  | n + 1, st => hairLoop E image t n (hairBody E image t st)

/-- One iteration of the outer loop of the growth-map constructor: the hair count of the
triangle takes one call of `rand()`, then the inner loop runs. -/
def triangleBody (E : Env) (image : QImage) (hairsPerUnitArea : ℚ)
    (st : List Hair × ℕ) (t : Triangle) : List Hair × ℕ :=
  let n : ℤ := numHairs E hairsPerUnitArea (t.area E) (E.draw st.2)
  hairLoop E image t n.toNat (st.1, st.2 + 1)

/-- The constructor `HairObject(ObjMesh*, float, const char*, Simulation*, HairObject*)`.
The image is passed as read from `_hairGrowthMap`; `none` is the `exit(1)` taken when its
width is 0. `stale` is what the storage of `m_numGuideHairs` holds, which this
constructor never assigns. -/
def HairObject.ofGrowthMap (E : Env) (stale : ℤ) (mesh : ObjMesh) (hairsPerUnitArea : ℚ)
    (image : QImage) (simulation : Option ℕ) (oldObject : Option HairObject) :
    Option HairObject :=
  if image.width = 0 then none
  else
    let o := HairObject.raw stale
    let st := mesh.triangles.foldl (triangleBody E image hairsPerUnitArea) (o.m_guideHairs, 0)
    let o := { o with m_guideHairs := st.1 }
    let o := o.setAttributes E oldObject
    some { o with m_simulation := simulation }

/-! ## The `float` format -/

/-- Rounding of a rational to the nearest integer, a tie going to the even one. -/
def roundEven (q : ℚ) : ℤ :=
  if q - ⌊q⌋ < 1 / 2 then ⌊q⌋
  else if 1 / 2 < q - ⌊q⌋ then ⌊q⌋ + 1
  else if ⌊q⌋ % 2 = 0 then ⌊q⌋ else ⌊q⌋ + 1

/-- The exponent of the unit in the last place of binary32 at `x`: 23 below the binary
exponent of `x`, and -149 for the subnormal values. -/
def ulpExp (x : ℚ) : ℤ := max (Int.log 2 |x|) (-126) - 23

/-- The rounding of a rational to binary32: the nearest multiple of the unit in the last
place, ties to even. -/
def fl32 (x : ℚ) : ℚ := (roundEven (x / 2 ^ ulpExp x) : ℚ) * 2 ^ ulpExp x

/-- The binary32 square root: the square root rounded to 24 significant bits (a tie,
which no `float` argument produces, goes up). -/
def sqrt32 (x : ℚ) : ℚ :=
  if x ≤ 0 then 0
  else
    let s : ℤ := Int.log 2 x / 2 - 23
    let q : ℚ := x / 2 ^ (2 * s)
    let n : ℕ := Nat.sqrt ⌊q⌋₊
    if (n : ℚ) * n + n + 1 / 4 ≤ q then ((n : ℚ) + 1) * 2 ^ s else (n : ℚ) * 2 ^ s

/-- The properties of the rounding to `float` that the statements below rely on: zero
is a `float`, a rounded value is a `float`, and rounding keeps the sign. -/
structure Env.IsRounding (E : Env) : Prop where
  zero : E.fl 0 = 0
  idem : ∀ x, E.fl (E.fl x) = E.fl x
  nonneg : ∀ x, 0 ≤ x → 0 ≤ E.fl x

/-! ## Concrete inputs -/

/-- An environment with glibc's `RAND_MAX`, binary32 rounding and square root, and the
given sequence of `rand()` values. -/
def glibcEnv (rand : ℕ → ℕ) : Env :=
  { RAND_MAX := 2147483647
    sqrt := sqrt32
    rand := rand
    defaults := ⟨⟨3 / 5, 2 / 5, 3 / 10⟩, 15, 3 / 20, 1 / 250, 3 / 100, 20⟩
    fl := fl32 }

/-- The right triangle with corners (0,0,0), (1,0,0), (0,1,0), area 1/2, corner UVs
(0,0), (1,0), (0,1) and the normal (0,0,1) at every corner. -/
def unitTriangle : Triangle :=
  { v1 := ⟨0, 0, 0⟩, v2 := ⟨1, 0, 0⟩, v3 := ⟨0, 1, 0⟩
    uv1 := ⟨0, 0⟩, uv2 := ⟨1, 0⟩, uv3 := ⟨0, 1⟩
    n1 := ⟨0, 0, 1⟩, n2 := ⟨0, 0, 1⟩, n3 := ⟨0, 0, 1⟩ }

/-- The triangle `unitTriangle` with the UV (1/2, 1/2) at every corner. -/
def midTriangle : Triangle :=
  { unitTriangle with uv1 := ⟨1 / 2, 1 / 2⟩, uv2 := ⟨1 / 2, 1 / 2⟩, uv3 := ⟨1 / 2, 1 / 2⟩ }

/-- The triangle `unitTriangle` with the UV (1, 1) at every corner. -/
def cornerTriangle : Triangle :=
  { unitTriangle with uv1 := ⟨1, 1⟩, uv2 := ⟨1, 1⟩, uv3 := ⟨1, 1⟩ }

/-- A triangle whose three corners coincide at the origin, UV (1/2, 1/2) everywhere. -/
def pointTriangle : Triangle :=
  { midTriangle with v1 := ⟨0, 0, 0⟩, v2 := ⟨0, 0, 0⟩, v3 := ⟨0, 0, 0⟩ }

/-- A triangle with its three corners on one line, `v3 = v1 - 3 (v2 - v1)`, every
coordinate a `float`: (-2^-24, 0, 0), (1, 1, 0), (-3 - 2^-22, -3, 0). -/
def sliverTriangle : Triangle :=
  { midTriangle with
    v1 := ⟨-1 / 16777216, 0, 0⟩, v2 := ⟨1, 1, 0⟩, v3 := ⟨-12582913 / 4194304, -3, 0⟩ }

/-- The sequence of `rand()` values 0, `RAND_MAX`, 0, 0, ... -/
def edgeDraws (k : ℕ) : ℕ := if k = 1 then 2147483647 else 0

/-- A growth map of one white pixel. -/
def whiteImage : QImage := { width := 1, height := 1, pixel := fun _ => ⟨255, 255, 255⟩ }

/-- A growth map of two by two black pixels. -/
def blackImage : QImage := { width := 2, height := 2, pixel := fun _ => ⟨0, 0, 0⟩ }

/-- A growth map of two by two pixels, black but for the white pixel (1, 0), the last
one of the first row. -/
def cornerImage : QImage :=
  { width := 2, height := 2
    pixel := fun p => if p = ⟨1, 0⟩ then ⟨255, 255, 255⟩ else ⟨0, 0, 0⟩ }

/-- A prior object with two default hairs and tunables that differ from the defaults. -/
def tunedObject : HairObject :=
  { HairObject.ofCount (glibcEnv fun _ => 0) 2 none with
    m_color := ⟨1, 0, 0⟩
    m_numGroupHairs := 7
    m_hairGroupSpread := 1 / 2
    m_hairRadius := 1 / 100
    m_noiseAmplitude := 1 / 10
    m_numSplineVertices := 9 }

/-! ## Spec-side definitions -/

/-- The six tunables of an object, read off its members. -/
def HairObject.tunables (o : HairObject) : Tunables :=
  ⟨o.m_color, o.m_numGroupHairs, o.m_hairGroupSpread, o.m_hairRadius, o.m_noiseAmplitude,
    o.m_numSplineVertices⟩

/-- The texel of a sample as the claim words it, `(uv.x * width, (1 - uv.y) * height)`
computed from the UV clamped to 0.999, in `float` arithmetic and converted to `int`. -/
def sampleTexel (E : Env) (image : QImage) (s : Sample) : QPoint :=
  ⟨toInt (E.fl (min s.uv.x (E.fl (999 / 1000)) * E.fl (image.width : ℚ))),
   toInt (E.fl (E.fl (1 - min s.uv.y (E.fl (999 / 1000))) * E.fl (image.height : ℚ)))⟩

/-- The acceptance test of a candidate sample as the claim words it: its texel is inside
the growth map and the growth value there is not zero. -/
def accepted (E : Env) (image : QImage) (s : Sample) : Bool :=
  decide (0 ≤ (sampleTexel E image s).x ∧ (sampleTexel E image s).x < image.width ∧
    0 ≤ (sampleTexel E image s).y ∧ (sampleTexel E image s).y < image.height) &&
    decide ((image.pixel (sampleTexel E image s)).value ≠ 0)

/-- The guide hair grown from an accepted sample: 20 vertices, spacing 0.4, rooted at
the sample position, directed along the sample normal. -/
def grownHair (s : Sample) : Hair :=
  { numVertices := 20, segmentSpacing := 2 / 5, rootPosition := s.pos, rootDirection := s.normal }

/-- The number of candidate points of triangle `t` when `k` calls of `rand()` precede
it: the hair count the constructor computes, no candidate when it is negative. -/
def candidateCount (E : Env) (d : ℚ) (t : Triangle) (k : ℕ) : ℕ :=
  (numHairs E d (t.area E) (E.draw k)).toNat

/-- The candidate samples of triangle `t`, in the order they are drawn: call `k` of
`rand()` goes to the count, candidate `j` is drawn from calls `k + 1 + 2 j` and the
next one. -/
def triangleCandidates (E : Env) (d : ℚ) (t : Triangle) (k : ℕ) : List Sample :=
  (List.range (candidateCount E d t k)).map fun j => t.randPoint E (k + 1 + 2 * j)

/-- The candidate samples of a list of triangles, in the order they are drawn, when `k`
calls of `rand()` precede them. -/
def candidates (E : Env) (d : ℚ) : List Triangle → ℕ → List Sample
  | [], _ => []
  | t :: ts, k =>
    triangleCandidates E d t k ++ candidates E d ts (k + 1 + 2 * candidateCount E d t k)

/-- A triangle whose corners coincide or lie on one line: `v2 = v1`, or `v3` is on the
line through `v1` and `v2`. -/
def Triangle.degenerate (t : Triangle) : Prop :=
  t.v2 = t.v1 ∨
    ∃ s : ℚ, t.v3 = t.v1.add (Vec3.smul s ⟨t.v2.x - t.v1.x, t.v2.y - t.v1.y, t.v2.z - t.v1.z⟩)

/-! ## Lemmas on the `float` format -/

theorem roundEven_intCast (n : ℤ) : roundEven (n : ℚ) = n := by
  simp [roundEven]

theorem roundEven_nonneg (q : ℚ) (h : 0 ≤ q) : 0 ≤ roundEven q := by
  have hf : 0 ≤ ⌊q⌋ := Int.floor_nonneg.mpr h
  unfold roundEven
  split_ifs <;> omega

theorem roundEven_le (q : ℚ) (n : ℤ) (h : q ≤ n) : roundEven q ≤ n := by
  have hfl : ⌊q⌋ ≤ n := Int.floor_le_floor h |>.trans_eq (Int.floor_intCast n)
  rcases hfl.lt_or_eq with hlt | heq
  · unfold roundEven
    split_ifs <;> omega
  · have hq : q = n := le_antisymm h (by rw [← heq]; exact Int.floor_le q)
    rw [hq, roundEven_intCast]

theorem le_roundEven (q : ℚ) (n : ℤ) (h : (n : ℚ) ≤ q) : n ≤ roundEven q := by
  have hfl : n ≤ ⌊q⌋ := Int.le_floor.mpr h
  unfold roundEven
  split_ifs <;> omega

theorem ulpExp_ge (x : ℚ) : -149 ≤ ulpExp x := by
  unfold ulpExp
  have := le_max_right (Int.log 2 |x|) (-126)
  omega

theorem abs_lt_zpow_ulpExp (x : ℚ) : |x| < 2 ^ (ulpExp x + 24) := by
  have h1 : |x| < ((2 : ℕ) : ℚ) ^ (Int.log 2 |x| + 1) := Int.lt_zpow_succ_log_self (by norm_num) _
  have h2 : Int.log 2 |x| + 1 ≤ ulpExp x + 24 := by
    unfold ulpExp
    have := le_max_left (Int.log 2 |x|) (-126)
    omega
  calc |x| < (2 : ℚ) ^ (Int.log 2 |x| + 1) := by exact_mod_cast h1
    _ ≤ 2 ^ (ulpExp x + 24) := zpow_le_zpow_right₀ (by norm_num) h2

theorem fl32_nonneg (x : ℚ) (h : 0 ≤ x) : 0 ≤ fl32 x := by
  unfold fl32
  have h2 : (0 : ℚ) < 2 ^ ulpExp x := by positivity
  have : 0 ≤ roundEven (x / 2 ^ ulpExp x) := roundEven_nonneg _ (div_nonneg h h2.le)
  have : (0 : ℚ) ≤ (roundEven (x / 2 ^ ulpExp x) : ℚ) := by exact_mod_cast this
  positivity

theorem fl32_zero : fl32 0 = 0 := by
  simp [fl32, roundEven]

/-- A value `m * 2 ^ e` with `|m| < 2 ^ 24` and `e ≥ -149` is a `float`. -/
theorem fl32_of_repr (m e : ℤ) (hm : |m| < 2 ^ 24) (he : -149 ≤ e) :
    fl32 ((m : ℚ) * 2 ^ e) = (m : ℚ) * 2 ^ e := by
  rcases eq_or_ne m 0 with rfl | hm0
  · simp [fl32_zero]
  obtain ⟨x, hx⟩ : ∃ x : ℚ, x = (m : ℚ) * 2 ^ e := ⟨_, rfl⟩
  rw [← hx]
  have h2e : (0 : ℚ) < 2 ^ e := by positivity
  have hxabs : |x| = ((|m| : ℤ) : ℚ) * 2 ^ e := by
    rw [hx, abs_mul, abs_of_pos h2e]; push_cast; rfl
  have hxpos : 0 < |x| := by
    rw [hxabs]
    have : (0 : ℚ) < ((|m| : ℤ) : ℚ) := by exact_mod_cast abs_pos.mpr hm0
    positivity
  have hs : ulpExp x ≤ e := by
    by_contra hcon
    push_neg at hcon
    have hlog : e + 24 ≤ Int.log 2 |x| := by
      unfold ulpExp at hcon
      rcases max_cases (Int.log 2 |x|) (-126) with ⟨h1, _⟩ | ⟨h1, _⟩ <;> omega
    have h1 : ((2 : ℕ) : ℚ) ^ (e + 24) ≤ |x| :=
      (Int.zpow_le_iff_le_log (by norm_num) hxpos).mpr hlog
    have h3 : |x| < 2 ^ (e + 24) := by
      rw [hxabs, zpow_add₀ (by norm_num : (2 : ℚ) ≠ 0), mul_comm ((2 : ℚ) ^ e)]
      have : ((|m| : ℤ) : ℚ) < 2 ^ (24 : ℤ) := by exact_mod_cast hm
      exact mul_lt_mul_of_pos_right this h2e
    have h1' : (2 : ℚ) ^ (e + 24) ≤ |x| := by exact_mod_cast h1
    exact absurd h1' (not_le.mpr h3)
  obtain ⟨n, hn⟩ := Int.eq_ofNat_of_zero_le (sub_nonneg.mpr hs)
  have hp : (2 : ℚ) ^ ulpExp x ≠ 0 := by positivity
  have hdiv : x / 2 ^ ulpExp x = ((m * 2 ^ n : ℤ) : ℚ) := by
    have he2 : e = ulpExp x + n := by omega
    have hxe : x = (m : ℚ) * (2 ^ ulpExp x * 2 ^ n) := by
      rw [← zpow_natCast, ← zpow_add₀ (by norm_num : (2 : ℚ) ≠ 0), ← he2]
      exact hx
    rw [div_eq_iff hp]
    push_cast
    conv_lhs => rw [hxe]
    ring
  unfold fl32
  rw [hdiv, roundEven_intCast, ← hdiv]
  field_simp

theorem fl32_idem (x : ℚ) : fl32 (fl32 x) = fl32 x := by
  have hb := abs_lt_zpow_ulpExp x
  have hp : (0 : ℚ) < 2 ^ ulpExp x := by positivity
  have hq : |x / 2 ^ ulpExp x| < 2 ^ (24 : ℤ) := by
    rw [abs_div, abs_of_pos hp, div_lt_iff₀ hp, ← zpow_add₀ (by norm_num : (2 : ℚ) ≠ 0),
      add_comm]
    exact hb
  have hq2 := abs_lt.mp hq
  have hle : roundEven (x / 2 ^ ulpExp x) ≤ 2 ^ 24 :=
    roundEven_le _ _ (by push_cast; exact_mod_cast hq2.2.le)
  have hge : -(2 ^ 24) ≤ roundEven (x / 2 ^ ulpExp x) :=
    le_roundEven _ _ (by push_cast; exact_mod_cast hq2.1.le)
  have hs := ulpExp_ge x
  obtain ⟨n, hn⟩ : ∃ n : ℤ, n = roundEven (x / 2 ^ ulpExp x) := ⟨_, rfl⟩
  have hfx : fl32 x = (n : ℚ) * 2 ^ ulpExp x := by rw [hn]; rfl
  rw [← hn] at hle hge
  rw [hfx]
  by_cases hlt : |n| < 2 ^ 24
  · exact fl32_of_repr n _ hlt hs
  · have hcase : n = 2 ^ 24 ∨ n = -(2 ^ 24) := by
      rw [abs_lt] at hlt
      omega
    have h1 : (2 : ℚ) ^ (ulpExp x + 1) = 2 ^ ulpExp x * 2 := by
      rw [zpow_add₀ (by norm_num : (2 : ℚ) ≠ 0), zpow_one]
    rcases hcase with h | h
    · have heq : (n : ℚ) * 2 ^ ulpExp x = ((2 ^ 23 : ℤ) : ℚ) * 2 ^ (ulpExp x + 1) := by
        rw [h, h1]; push_cast; ring
      rw [heq]
      exact fl32_of_repr (2 ^ 23) (ulpExp x + 1) (by norm_num) (by omega)
    · have heq : (n : ℚ) * 2 ^ ulpExp x = ((-(2 ^ 23) : ℤ) : ℚ) * 2 ^ (ulpExp x + 1) := by
        rw [h, h1]; push_cast; ring
      rw [heq]
      exact fl32_of_repr (-(2 ^ 23)) (ulpExp x + 1) (by norm_num) (by omega)

theorem fl32_intCast (n : ℤ) (h : |n| < 2 ^ 24) : fl32 (n : ℚ) = n := by
  simpa using fl32_of_repr n 0 h (by norm_num)

/-- The rounding of a value whose binary exponent `e` is known. -/
theorem fl32_of_exponent (x : ℚ) (e : ℤ) (h1 : 2 ^ e ≤ |x|) (h2 : |x| < 2 ^ (e + 1))
    (he : -126 ≤ e) :
    fl32 x = (roundEven (x / 2 ^ (e - 23)) : ℚ) * 2 ^ (e - 23) := by
  have hpos : 0 < |x| := lt_of_lt_of_le (by positivity) h1
  have hl1 : e ≤ Int.log 2 |x| :=
    (Int.zpow_le_iff_le_log (by norm_num) hpos).mp (by exact_mod_cast h1)
  have hl2 : Int.log 2 |x| < e + 1 :=
    (Int.lt_zpow_iff_log_lt (by norm_num) hpos).mp (by exact_mod_cast h2)
  have hu : ulpExp x = e - 23 := by
    unfold ulpExp
    rw [max_eq_left (by omega)]
    omega
  rw [fl32, hu]

theorem fl32_fix (x : ℚ) (m e : ℤ) (hx : x = (m : ℚ) * 2 ^ e) (hm : |m| < 2 ^ 24)
    (he : -149 ≤ e) : fl32 x = x := by
  rw [hx]; exact fl32_of_repr m e hm he

theorem fl32_one : fl32 1 = 1 := by simpa using fl32_intCast 1 (by norm_num)

theorem fl32_neg_one : fl32 (-1) = -1 := by simpa using fl32_intCast (-1) (by norm_num)

theorem fl32_two : fl32 2 = 2 := by simpa using fl32_intCast 2 (by norm_num)

theorem fl32_half : fl32 (1 / 2) = 1 / 2 :=
  fl32_fix _ 1 (-1) (by norm_num) (by norm_num) (by norm_num)

theorem fl32_inv_two : fl32 2⁻¹ = 2⁻¹ :=
  fl32_fix _ 1 (-1) (by norm_num) (by norm_num) (by norm_num)

theorem fl32_three_quarters : fl32 (3 / 4) = 3 / 4 :=
  fl32_fix _ 3 (-2) (by norm_num) (by norm_num) (by norm_num)

theorem fl32_near_rand_max (r : ℚ) (h1 : 2147483584 ≤ r) (h2 : r < 2147483648) :
    fl32 r = 2147483648 := by
  have hr : |r| = r := abs_of_nonneg (by linarith)
  rw [fl32_of_exponent r 30 (by rw [hr]; norm_num; linarith) (by rw [hr]; norm_num; linarith)
    (by norm_num)]
  have hround : roundEven (r / 2 ^ ((30 : ℤ) - 23)) = 16777216 := by
    have hp : ((2 : ℚ) ^ ((30 : ℤ) - 23)) = 128 := by norm_num
    rw [hp]
    have hf : ⌊r / 128⌋ = 16777215 := by
      rw [Int.floor_eq_iff]
      constructor
      · rw [le_div_iff₀ (by norm_num)]; push_cast; linarith
      · rw [div_lt_iff₀ (by norm_num)]; push_cast; linarith
    have hfrac : 1 / 2 ≤ r / 128 - 16777215 := by
      rw [le_sub_iff_add_le, le_div_iff₀ (by norm_num)]; linarith
    unfold roundEven
    rw [hf, if_neg (by push_cast; linarith)]
    split_ifs <;> norm_num at *
  rw [hround]; norm_num

theorem fl32_rand_max : fl32 2147483647 = 2147483648 :=
  fl32_near_rand_max _ (by norm_num) (by norm_num)

theorem fl32_999 : fl32 (999 / 1000) = 16760439 / 16777216 := by
  rw [fl32_of_exponent _ (-1) (by norm_num [abs_of_pos]) (by norm_num [abs_of_pos]) (by norm_num)]
  have : roundEven ((999 / 1000 : ℚ) / 2 ^ ((-1 : ℤ) - 23)) = 16760439 := by
    unfold roundEven
    have hf : ⌊(999 / 1000 : ℚ) / 2 ^ ((-1 : ℤ) - 23)⌋ = 16760438 := by
      rw [Int.floor_eq_iff]; norm_num
    rw [hf]; norm_num
  rw [this]; norm_num

theorem sqrt32_zero : sqrt32 0 = 0 := by simp [sqrt32]

theorem sqrt32_one : sqrt32 1 = 1 := by
  have hs : Int.log 2 (1 : ℚ) / 2 - 23 = -23 := by simp
  have hq : (1 : ℚ) / 2 ^ (2 * (-23 : ℤ)) = ((8388608 * 8388608 : ℕ) : ℚ) := by norm_num
  simp only [sqrt32, hs, hq, Nat.floor_natCast, Nat.sqrt_eq]
  norm_num

theorem glibc_isRounding (r : ℕ → ℕ) : (glibcEnv r).IsRounding :=
  ⟨fl32_zero, fl32_idem, fl32_nonneg⟩

/-! ## Lemmas on the constructors -/

theorem setAttributes_tunables (E : Env) (o old : HairObject) :
    (o.setAttributes E (some old)).tunables = old.tunables := rfl

theorem setAttributes_guideHairs (E : Env) (o : HairObject) (old : Option HairObject) :
    (o.setAttributes E old).m_guideHairs = o.m_guideHairs := by
  cases old <;> rfl

theorem setAttributes_numGuideHairs (E : Env) (o : HairObject) (old : Option HairObject) :
    (o.setAttributes E old).m_numGuideHairs = o.m_numGuideHairs := by
  cases old <;> rfl

theorem MIN_eq_min (x y : ℚ) : MIN x y = min x y := by
  unfold MIN
  rcases lt_or_le x y with h | h
  · rw [if_pos h, min_eq_left h.le]
  · rw [if_neg (not_lt.mpr h), min_eq_right h]

/-- The texel the constructor looks up is the one the claim words. -/
theorem texel_clampUV (E : Env) (image : QImage) (s : Sample) :
    texel E image (clampUV E s.uv) = sampleTexel E image s := by
  simp only [texel, clampUV, sampleTexel, MIN_eq_min, Env.fmul, Env.fsub, Env.ofInt,
    Int.cast_natCast]

theorem valid_iff (image : QImage) (p : QPoint) :
    image.valid p = true ↔
      0 ≤ p.x ∧ p.x < image.width ∧ 0 ≤ p.y ∧ p.y < image.height := by
  simp only [QImage.valid, Bool.and_eq_true, decide_eq_true_eq, and_assoc]

theorem accepted_iff (E : Env) (image : QImage) (s : Sample) :
    accepted E image s = true ↔
      image.valid (texel E image (clampUV E s.uv)) = true ∧
        (image.pixel (texel E image (clampUV E s.uv))).value ≠ 0 := by
  rw [texel_clampUV, valid_iff]
  simp only [accepted, Bool.and_eq_true, decide_eq_true_eq]

theorem hairBody_eq (E : Env) (image : QImage) (t : Triangle) (st : List Hair × ℕ) :
    hairBody E image t st =
      if accepted E image (t.randPoint E st.2) = true then
        (st.1 ++ [grownHair (t.randPoint E st.2)], st.2 + 2)
      else (st.1, st.2 + 2) := by
  by_cases hv : image.valid (texel E image (clampUV E (t.randPoint E st.2).uv)) = true
  · by_cases hz : (image.pixel (texel E image (clampUV E (t.randPoint E st.2).uv))).value = 0
    · rw [if_neg (by rw [accepted_iff]; exact fun h => h.2 hz)]
      simp [hairBody, hv, hz]
    · rw [if_pos ((accepted_iff E image _).mpr ⟨hv, hz⟩)]
      simp [hairBody, hv, hz, grownHair]
  · rw [if_neg (by rw [accepted_iff]; exact fun h => hv h.1)]
    simp [hairBody, hv]

theorem hairLoop_eq (E : Env) (image : QImage) (t : Triangle) :
    ∀ (n : ℕ) (hs : List Hair) (k : ℕ),
      hairLoop E image t n (hs, k) =
        (hs ++ (((List.range n).map fun j => t.randPoint E (k + 2 * j)).filter
            (accepted E image)).map grownHair, k + 2 * n)
  | 0, hs, k => by simp [hairLoop]
  | n + 1, hs, k => by
    have hshift : (List.map (fun j => t.randPoint E (k + 2 * j)) (List.range (n + 1))) =
        t.randPoint E k ::
          List.map (fun j => t.randPoint E (k + 2 + 2 * j)) (List.range n) := by
      rw [List.range_succ_eq_map, List.map_cons, List.map_map]
      refine congrArg₂ _ rfl (List.map_congr_left fun j _ => ?_)
      simp only [Function.comp, Nat.succ_eq_add_one]
      congr 1; ring
    rw [hairLoop, hairBody_eq, hshift]
    by_cases h : accepted E image (t.randPoint E k) = true
    · rw [if_pos h, hairLoop_eq E image t n, List.filter_cons_of_pos h, List.map_cons,
        List.append_assoc, List.singleton_append]
      exact congrArg₂ _ rfl (by ring)
    · rw [if_neg h, hairLoop_eq E image t n, List.filter_cons_of_neg h]
      exact congrArg₂ _ rfl (by ring)

theorem triangleBody_eq (E : Env) (image : QImage) (d : ℚ) (hs : List Hair) (k : ℕ)
    (t : Triangle) :
    triangleBody E image d (hs, k) t =
      (hs ++ ((triangleCandidates E d t k).filter (accepted E image)).map grownHair,
        k + 1 + 2 * candidateCount E d t k) := by
  simp only [triangleBody, hairLoop_eq, triangleCandidates, candidateCount]

theorem foldl_triangleBody_eq (E : Env) (image : QImage) (d : ℚ) :
    ∀ (ts : List Triangle) (hs : List Hair) (k : ℕ),
      (ts.foldl (triangleBody E image d) (hs, k)).1 =
        hs ++ ((candidates E d ts k).filter (accepted E image)).map grownHair
  | [], hs, k => by simp [candidates]
  | t :: ts, hs, k => by
    rw [List.foldl_cons, triangleBody_eq, foldl_triangleBody_eq E image d ts]
    simp [candidates, List.filter_append]

theorem ofGrowthMap_guideHairs (E : Env) (stale : ℤ) (mesh : ObjMesh) (d : ℚ)
    (image : QImage) (sim : Option ℕ) (old : Option HairObject) (himg : image.width ≠ 0) :
    ∃ o, HairObject.ofGrowthMap E stale mesh d image sim old = some o ∧
      o.m_numGuideHairs = stale ∧
      o.m_guideHairs =
        ((candidates E d mesh.triangles 0).filter (accepted E image)).map grownHair := by
  simp only [HairObject.ofGrowthMap, if_neg himg]
  refine ⟨_, rfl, ?_, ?_⟩
  · simp only [setAttributes_numGuideHairs]; rfl
  · simp only [setAttributes_guideHairs, foldl_triangleBody_eq]; rfl

theorem toInt_of_nonneg (x : ℚ) (h : 0 ≤ x) (hlt : x < 2147483648) : toInt x = ⌊x⌋ := by
  unfold toInt
  rw [if_pos ⟨by linarith, hlt⟩, if_pos h]

theorem draw_nonneg (E : Env) (hE : E.IsRounding) (k : ℕ) : 0 ≤ E.draw k := by
  unfold Env.draw Env.fdiv Env.ofInt
  refine hE.nonneg _ (div_nonneg (hE.nonneg _ ?_) (hE.nonneg _ ?_)) <;> positivity

theorem draw_idem (E : Env) (hE : E.IsRounding) (k : ℕ) : E.fl (E.draw k) = E.draw k :=
  hE.idem _

/-- The third weight of `Triangle::randPoint` is `sqrt(u1) - u2` in exact arithmetic. -/
theorem randPtBary_z (E : Env) (k : ℕ) :
    (randPtBary E.exact k).z = E.sqrt (E.exact.draw k) - E.exact.draw (k + 1) := by
  simp only [randPtBary, Env.fsub, Env.exact]; ring

theorem clampUV_le (E : Env) (uv : Vec2) :
    (clampUV E uv).x ≤ E.fl (999 / 1000) ∧ (clampUV E uv).y ≤ E.fl (999 / 1000) := by
  simp only [clampUV, MIN_eq_min]
  exact ⟨min_le_right _ _, min_le_right _ _⟩

/-- The area computed for a triangle with `v2 = v1` or `v3 = v1` is 0. -/
theorem area_eq_zero_of_coincident (E : Env) (hE : E.IsRounding) (h0 : E.sqrt 0 = 0)
    (t : Triangle) (h : t.v2 = t.v1 ∨ t.v3 = t.v1) : t.area E = 0 := by
  rcases h with h | h <;>
    simp [Triangle.area, Env.length, Vec3.cross, Vec3.sub, Vec3.dot, Env.fdiv, Env.fsub,
      Env.fmul, Env.fadd, h, hE.zero, h0]

/-- In exact arithmetic the cross product of the edges of a degenerate triangle is 0,
and so is its area. -/
theorem area_eq_zero_of_degenerate (E : Env) (h0 : E.sqrt 0 = 0) (t : Triangle)
    (h : t.degenerate) : t.area E.exact = 0 := by
  have hc : Vec3.cross E.exact (Vec3.sub E.exact t.v3 t.v1) (Vec3.sub E.exact t.v2 t.v1)
      = ⟨0, 0, 0⟩ := by
    rcases h with h | ⟨s, h⟩
    · simp only [h, Vec3.cross, Vec3.sub, Env.fsub, Env.fmul, Env.exact, Vec3.mk.injEq]
      constructorm* _ ∧ _ <;> ring
    · simp only [h, Vec3.cross, Vec3.sub, Vec3.add, Vec3.smul, Env.fsub, Env.fmul, Env.exact,
        Vec3.mk.injEq]
      constructorm* _ ∧ _ <;> ring
  simp only [Triangle.area, Env.length, hc]
  simp [Vec3.dot, Env.fdiv, Env.fadd, Env.fmul, Env.exact, h0]

theorem ofOld_guideHairs (E : Env) (old : HairObject) (sim : Option ℕ) :
    (HairObject.ofOld E old sim).m_guideHairs = defaultHairs E old.m_numGuideHairs := rfl

theorem ofOld_numGuideHairs (E : Env) (old : HairObject) (sim : Option ℕ) :
    (HairObject.ofOld E old sim).m_numGuideHairs = old.m_numGuideHairs := rfl

theorem ofCount_guideHairs (E : Env) (n : ℤ) (sim : Option ℕ) :
    (HairObject.ofCount E n sim).m_guideHairs = defaultHairs E n := rfl

theorem ofCount_numGuideHairs (E : Env) (n : ℤ) (sim : Option ℕ) :
    (HairObject.ofCount E n sim).m_numGuideHairs = n := rfl

theorem defaultHairs_length (E : Env) (n : ℤ) : (defaultHairs E n).length = n.toNat := by
  simp [defaultHairs]

/-- The copy constructor keeps the number of guide hairs of every prior object whose
`m_numGuideHairs` is its number of guide hairs, and hair `i` is the default hair `i`. -/
theorem ofOld_length_of_count (E : Env) (old : HairObject) (sim : Option ℕ)
    (h : old.m_numGuideHairs = (old.m_guideHairs.length : ℤ)) :
    (HairObject.ofOld E old sim).m_guideHairs.length = old.m_guideHairs.length ∧
    ∀ i, i < old.m_guideHairs.length →
      (HairObject.ofOld E old sim).m_guideHairs[i]? = some (defaultHair E i) := by
  rw [ofOld_guideHairs, defaultHairs_length, h]
  refine ⟨by simp, fun i hi => ?_⟩
  simp [defaultHairs, h, hi]

/-- The count constructor leaves `m_numGuideHairs` equal to the number of guide hairs,
when the count asked for is not negative. -/
theorem count_invariant (E : Env) (n : ℤ) (hn : 0 ≤ n) (sim : Option ℕ) :
    (HairObject.ofCount E n sim).m_numGuideHairs =
      ((HairObject.ofCount E n sim).m_guideHairs.length : ℤ) := by
  rw [ofCount_guideHairs, ofCount_numGuideHairs, defaultHairs_length, Int.toNat_of_nonneg hn]

/-! ## Evaluation on the concrete inputs -/

theorem range_one : List.range 1 = [0] := rfl

theorem glibc_fl (r : ℕ → ℕ) : (glibcEnv r).fl = fl32 := rfl

theorem glibc_sqrt (r : ℕ → ℕ) : (glibcEnv r).sqrt = sqrt32 := rfl

theorem glibc_area_unit (r : ℕ → ℕ) : unitTriangle.area (glibcEnv r) = 1 / 2 := by
  simp [Triangle.area, Env.length, Vec3.cross, Vec3.sub, Vec3.dot, Env.fdiv, Env.fsub,
    Env.fmul, Env.fadd, unitTriangle, glibcEnv, fl32_zero, fl32_one, fl32_neg_one,
    sqrt32_one, fl32_inv_two]

theorem glibc_area_mid (r : ℕ → ℕ) : midTriangle.area (glibcEnv r) = 1 / 2 :=
  glibc_area_unit r

theorem glibc_area_corner (r : ℕ → ℕ) : cornerTriangle.area (glibcEnv r) = 1 / 2 :=
  glibc_area_unit r

theorem glibc_area_point (r : ℕ → ℕ) : pointTriangle.area (glibcEnv r) = 0 :=
  area_eq_zero_of_coincident _ (glibc_isRounding r) sqrt32_zero _ (Or.inl rfl)

theorem sliver_degenerate : sliverTriangle.degenerate := by
  refine Or.inr ⟨-3, ?_⟩
  simp only [sliverTriangle, midTriangle, unitTriangle, Vec3.add, Vec3.smul, Vec3.mk.injEq]
  norm_num

theorem sqrt32_sliver : sqrt32 (1 / 17592186044416) = 1 / 4194304 := by
  have hx : (1 / 17592186044416 : ℚ) = ((2 : ℕ) : ℚ) ^ (-44 : ℤ) := by norm_num
  have hl : Int.log 2 (1 / 17592186044416 : ℚ) = -44 := by
    rw [hx]; exact Int.log_zpow (by norm_num) _
  have hs : Int.log 2 (1 / 17592186044416 : ℚ) / 2 - 23 = -45 := by rw [hl]; norm_num
  have hq : (1 / 17592186044416 : ℚ) / 2 ^ (2 * (-45 : ℤ)) =
      ((8388608 * 8388608 : ℕ) : ℚ) := by norm_num
  simp only [sqrt32, hs, hq, Nat.floor_natCast, Nat.sqrt_eq]
  norm_num

/-- The area computed for the collinear `sliverTriangle` is 2^-23, not 0: the two edge
vectors are rounded, (-3 - 2^-22, -3, 0) and (1, 1, 0), and are no longer parallel. -/
theorem glibc_area_sliver (r : ℕ → ℕ) : sliverTriangle.area (glibcEnv r) = 1 / 8388608 := by
  have e1 : fl32 (-12582913 / 4194304 - -1 / 16777216) = -12582913 / 4194304 := by
    rw [fl32_of_exponent _ 1 (by norm_num [abs_of_neg]) (by norm_num [abs_of_neg])
      (by norm_num)]
    have hr : roundEven ((-12582913 / 4194304 - -1 / 16777216 : ℚ) / 2 ^ ((1 : ℤ) - 23))
        = -12582913 := by
      unfold roundEven
      have hf : ⌊(-12582913 / 4194304 - -1 / 16777216 : ℚ) / 2 ^ ((1 : ℤ) - 23)⌋
          = -12582913 := by
        rw [Int.floor_eq_iff]; norm_num
      rw [hf]; norm_num
    rw [hr]; norm_num
  have e2 : fl32 (1 - -1 / 16777216) = 1 := by
    rw [fl32_of_exponent _ 0 (by norm_num [abs_of_pos]) (by norm_num [abs_of_pos])
      (by norm_num)]
    have hr : roundEven ((1 - -1 / 16777216 : ℚ) / 2 ^ ((0 : ℤ) - 23)) = 8388608 := by
      unfold roundEven
      have hf : ⌊(1 - -1 / 16777216 : ℚ) / 2 ^ ((0 : ℤ) - 23)⌋ = 8388608 := by
        rw [Int.floor_eq_iff]; norm_num
      rw [hf]; norm_num
    rw [hr]; norm_num
  have e3 : fl32 (-3) = -3 := by simpa using fl32_intCast (-3) (by norm_num)
  have e4 : fl32 (-12582913 / 4194304) = -12582913 / 4194304 :=
    fl32_fix _ (-12582913) (-22) (by norm_num) (by norm_num) (by norm_num)
  have e5 : fl32 (-12582913 / 4194304 - -3) = -1 / 4194304 :=
    (congrArg fl32 (by norm_num)).trans
      (fl32_fix (-1 / 4194304) (-1) (-22) (by norm_num) (by norm_num) (by norm_num))
  have e6 : fl32 (-1 / 4194304 * (-1 / 4194304)) = 1 / 17592186044416 :=
    (congrArg fl32 (by norm_num)).trans
      (fl32_fix (1 / 17592186044416) 1 (-44) (by norm_num) (by norm_num) (by norm_num))
  have e8 : fl32 (1 / 17592186044416) = 1 / 17592186044416 :=
    fl32_fix _ 1 (-44) (by norm_num) (by norm_num) (by norm_num)
  have e7 : fl32 (1 / 4194304 / 2) = 1 / 8388608 :=
    (congrArg fl32 (by norm_num)).trans
      (fl32_fix (1 / 8388608) 1 (-23) (by norm_num) (by norm_num) (by norm_num))
  simp only [Triangle.area, Env.length, Vec3.cross, Vec3.sub, Vec3.dot, Env.fdiv, Env.fsub,
    Env.fmul, Env.fadd, sliverTriangle, midTriangle, unitTriangle, glibc_fl, glibc_sqrt,
    e1, e2, sub_zero, sub_self, fl32_zero, e3, fl32_one, mul_zero, zero_mul, mul_one, one_mul,
    e4, e5, e6, zero_add, e8, sqrt32_sliver, e7]

theorem glibc_draw (r : ℕ → ℕ) (k : ℕ) :
    (glibcEnv r).draw k = fl32 (fl32 (r k : ℚ) / 2147483648) := by
  have h : fl32 ((2147483647 : ℕ) : ℚ) = 2147483648 := by
    rw [show ((2147483647 : ℕ) : ℚ) = 2147483647 by norm_cast]
    exact fl32_rand_max
  simp only [Env.draw, Env.fdiv, Env.ofInt, glibcEnv, Int.cast_natCast, h]

theorem glibc_draw_zero (k : ℕ) : (glibcEnv fun _ => 0).draw k = 0 := by
  rw [glibc_draw]; simp [fl32_zero]

theorem glibc_draw_one (k : ℕ) : (glibcEnv fun _ => 2147483647).draw k = 1 := by
  rw [glibc_draw, show ((2147483647 : ℕ) : ℚ) = 2147483647 by norm_cast, fl32_rand_max]
  norm_num [fl32_one]

/-- The draw is 1 for each of the 64 values `2^31 - 64 ≤ rand() ≤ RAND_MAX`: the
conversion to `float` rounds them all to 2^31, as it does `RAND_MAX`. -/
theorem glibc_draw_top (r : ℕ → ℕ) (k : ℕ) (h1 : 2147483584 ≤ r k)
    (h2 : r k ≤ 2147483647) : (glibcEnv r).draw k = 1 := by
  have h1q : (2147483584 : ℚ) ≤ (r k : ℚ) := by exact_mod_cast h1
  have h2q : (r k : ℚ) < 2147483648 := by
    have : (r k : ℚ) ≤ 2147483647 := by exact_mod_cast h2
    linarith
  rw [glibc_draw, fl32_near_rand_max _ h1q h2q]
  norm_num [fl32_one]

/-- The draw is already 1 at `rand() = RAND_MAX - 1`. -/
theorem glibc_draw_near_max (k : ℕ) : (glibcEnv fun _ => 2147483646).draw k = 1 := by
  rw [glibc_draw, show ((2147483646 : ℕ) : ℚ) = 2147483646 by norm_cast,
    fl32_near_rand_max 2147483646 (by norm_num) (by norm_num)]
  norm_num [fl32_one]

theorem glibc_draw_edge_zero : (glibcEnv edgeDraws).draw 0 = 0 := by
  rw [glibc_draw]; simp [edgeDraws, fl32_zero]

theorem glibc_draw_edge_one : (glibcEnv edgeDraws).draw 1 = 1 := by
  rw [glibc_draw]
  rw [show ((edgeDraws 1 : ℕ) : ℚ) = 2147483647 by simp only [edgeDraws, if_true]; norm_cast,
    fl32_rand_max]
  norm_num [fl32_one]

theorem glibc_bary_zero (k : ℕ) : randPtBary (glibcEnv fun _ => 0) k = ⟨1, 0, 0⟩ := by
  simp [randPtBary, glibc_draw_zero, glibc_fl, glibc_sqrt, Env.fsub, sqrt32_zero, fl32_one,
    fl32_zero]

theorem glibc_bary_one (k : ℕ) : randPtBary (glibcEnv fun _ => 2147483647) k = ⟨0, 1, 0⟩ := by
  simp [randPtBary, glibc_draw_one, glibc_fl, glibc_sqrt, Env.fsub, sqrt32_one, fl32_one,
    fl32_zero]

theorem glibc_bary_edge : randPtBary (glibcEnv edgeDraws) 0 = ⟨1, 1, -1⟩ := by
  simp [randPtBary, glibc_draw_edge_zero, glibc_draw_edge_one, glibc_fl, glibc_sqrt, Env.fsub,
    sqrt32_zero, fl32_one, fl32_zero, fl32_neg_one]

theorem glibc_count_mid : candidateCount (glibcEnv fun _ => 0) 2 midTriangle 0 = 1 := by
  simp [candidateCount, glibc_area_mid, glibc_draw_zero, numHairs, toInt, Env.fadd, Env.fmul,
    glibc_fl, fl32_one]
  norm_num

theorem glibc_count_corner : candidateCount (glibcEnv fun _ => 0) 2 cornerTriangle 0 = 1 := by
  simp [candidateCount, glibc_area_corner, glibc_draw_zero, numHairs, toInt, Env.fadd,
    Env.fmul, glibc_fl, fl32_one]
  norm_num

theorem glibc_uv_mid_zero (k : ℕ) :
    (midTriangle.randPoint (glibcEnv fun _ => 0) k).uv = ⟨1 / 2, 1 / 2⟩ := by
  simp [Triangle.randPoint, glibc_bary_zero, mat3x2MulVec, Env.row, Env.fadd, Env.fmul,
    midTriangle, unitTriangle, glibc_fl, fl32_zero, fl32_inv_two]

theorem glibc_uv_point_one (k : ℕ) :
    (pointTriangle.randPoint (glibcEnv fun _ => 2147483647) k).uv = ⟨1 / 2, 1 / 2⟩ := by
  simp [Triangle.randPoint, glibc_bary_one, mat3x2MulVec, Env.row, Env.fadd, Env.fmul,
    pointTriangle, midTriangle, unitTriangle, glibc_fl, fl32_zero, fl32_inv_two]

theorem glibc_uv_sliver_zero (k : ℕ) :
    (sliverTriangle.randPoint (glibcEnv fun _ => 0) k).uv = ⟨1 / 2, 1 / 2⟩ := by
  simp [Triangle.randPoint, glibc_bary_zero, mat3x2MulVec, Env.row, Env.fadd, Env.fmul,
    sliverTriangle, midTriangle, unitTriangle, glibc_fl, fl32_zero, fl32_inv_two]

theorem glibc_count_sliver :
    candidateCount (glibcEnv fun _ => 0) 8388608 sliverTriangle 0 = 1 := by
  simp [candidateCount, glibc_area_sliver, glibc_draw_zero, numHairs, toInt, Env.fadd,
    Env.fmul, glibc_fl, fl32_one]
  norm_num

theorem glibc_uv_corner_zero (k : ℕ) :
    (cornerTriangle.randPoint (glibcEnv fun _ => 0) k).uv = ⟨1, 1⟩ := by
  simp [Triangle.randPoint, glibc_bary_zero, mat3x2MulVec, Env.row, Env.fadd, Env.fmul,
    cornerTriangle, unitTriangle, glibc_fl, fl32_zero, fl32_one]

theorem glibc_texel_white (r : ℕ → ℕ) (s : Sample) (h : s.uv = ⟨1 / 2, 1 / 2⟩) :
    sampleTexel (glibcEnv r) whiteImage s = ⟨0, 0⟩ := by
  have h1 : min (1 / 2 : ℚ) (16760439 / 16777216) = 1 / 2 := by norm_num
  simp only [sampleTexel, h, glibc_fl, whiteImage, fl32_999, h1, Nat.cast_one, fl32_one,
    mul_one, fl32_half]
  have h2 : (1 : ℚ) - 1 / 2 = 1 / 2 := by norm_num
  rw [h2, fl32_half, fl32_half, toInt_of_nonneg _ (by norm_num) (by norm_num)]
  norm_num

theorem glibc_accepted_white (r : ℕ → ℕ) (s : Sample) (h : s.uv = ⟨1 / 2, 1 / 2⟩) :
    accepted (glibcEnv r) whiteImage s = true := by
  simp only [accepted, glibc_texel_white r s h]
  simp [whiteImage, QColor.value]

/-- On a two-by-two image the UV (1, 1) is clamped to (0.999f, 0.999f) and its texel is
(1, 0): the products 2 * 0.999f and 2 * (1 - 0.999f) are exact in `float`. -/
theorem glibc_texel_corner (r : ℕ → ℕ) (s : Sample) (h : s.uv = ⟨1, 1⟩) :
    sampleTexel (glibcEnv r) cornerImage s = ⟨1, 0⟩ := by
  have h1 : min (1 : ℚ) (16760439 / 16777216) = 16760439 / 16777216 := by norm_num
  have h2 : (1 : ℚ) - 16760439 / 16777216 = 16777 / 16777216 := by norm_num
  have h3 : fl32 (16777 / 16777216) = 16777 / 16777216 :=
    fl32_fix _ 16777 (-24) (by norm_num) (by norm_num) (by norm_num)
  have h4 : fl32 (16760439 / 16777216 * 2) = 16760439 / 8388608 :=
    (congrArg fl32 (by norm_num)).trans
      (fl32_fix _ 16760439 (-23) (by norm_num) (by norm_num) (by norm_num))
  have h5 : fl32 (16777 / 16777216 * 2) = 16777 / 8388608 :=
    (congrArg fl32 (by norm_num)).trans
      (fl32_fix _ 16777 (-23) (by norm_num) (by norm_num) (by norm_num))
  simp only [sampleTexel, h, glibc_fl, cornerImage, fl32_999, h1, h2, h3, Nat.cast_ofNat,
    fl32_two, h4, h5]
  rw [toInt_of_nonneg _ (by norm_num) (by norm_num),
    toInt_of_nonneg _ (by norm_num) (by norm_num)]
  norm_num [Int.floor_eq_iff]

/-- On an image 1000 pixels high the UV row 1 is clamped to 0.999f, which is above
999/1000, and the texel row is 0: `(1 - 0.999f) * 1000` is below 1. -/
theorem glibc_texel_row (r : ℕ → ℕ) (pixel : QPoint → QColor) (s : Sample)
    (h : s.uv = ⟨1 / 2, 1⟩) :
    sampleTexel (glibcEnv r) ⟨1, 1000, pixel⟩ s = ⟨0, 0⟩ := by
  have h0 : min (1 / 2 : ℚ) (16760439 / 16777216) = 1 / 2 := by norm_num
  have h1 : min (1 : ℚ) (16760439 / 16777216) = 16760439 / 16777216 := by norm_num
  have h2 : (1 : ℚ) - 16760439 / 16777216 = 16777 / 16777216 := by norm_num
  have h3 : fl32 (16777 / 16777216) = 16777 / 16777216 :=
    fl32_fix _ 16777 (-24) (by norm_num) (by norm_num) (by norm_num)
  have h4 : fl32 1000 = 1000 := by simpa using fl32_intCast 1000 (by norm_num)
  have h5 : fl32 (16777 / 16777216 * 1000) = 2097125 / 2097152 :=
    (congrArg fl32 (by norm_num)).trans
      (fl32_fix _ 2097125 (-21) (by norm_num) (by norm_num) (by norm_num))
  simp only [sampleTexel, h, glibc_fl, fl32_999, h0, h1, h2, h3, Nat.cast_ofNat, Nat.cast_one,
    fl32_one, mul_one, fl32_half, h4, h5]
  rw [toInt_of_nonneg _ (by norm_num) (by norm_num),
    toInt_of_nonneg _ (by norm_num) (by norm_num)]
  norm_num [Int.floor_eq_iff]

theorem glibc_accepted_corner (r : ℕ → ℕ) (s : Sample) (h : s.uv = ⟨1, 1⟩) :
    accepted (glibcEnv r) cornerImage s = true := by
  simp only [accepted, glibc_texel_corner r s h]
  simp [cornerImage, QColor.value]

/-! ## The claims -/

/-- C1. An object built from a prior object `old`, by the copy constructor or by the
growth-map constructor given `old`, has the color, group count, spread, radius, noise
amplitude and spline-vertex count of `old`, whatever its guide hairs are. -/
theorem C1_attribute_copy (E : Env) (old : HairObject) (sim : Option ℕ) (stale : ℤ)
    (mesh : ObjMesh) (d : ℚ) (image : QImage) (himg : image.width ≠ 0) :
    (HairObject.ofOld E old sim).tunables = old.tunables ∧
    (∃ o, HairObject.ofGrowthMap E stale mesh d image sim (some old) = some o ∧
      o.tunables = old.tunables) := by
  refine ⟨rfl, ?_⟩
  simp only [HairObject.ofGrowthMap, if_neg himg]
  exact ⟨_, rfl, rfl⟩

/-- Witness of C1 on the prior object `tunedObject`, the one-triangle mesh and the white
growth map. -/
theorem C1_attribute_copy_witness :
    (HairObject.ofOld (glibcEnv fun _ => 0) tunedObject none).tunables = tunedObject.tunables ∧
    (∃ o, HairObject.ofGrowthMap (glibcEnv fun _ => 0) 0 ⟨[midTriangle]⟩ 2 whiteImage none
        (some tunedObject) = some o ∧ o.tunables = tunedObject.tunables) :=
  C1_attribute_copy (glibcEnv fun _ => 0) tunedObject none 0 ⟨[midTriangle]⟩ 2 whiteImage
    (by decide)

/-- C2 fails when the two calls of `rand()` in `Triangle::randPoint` return 0 and
`RAND_MAX`: the draws are u1 = 0 and u2 = 1, both in [0,1], the weights are (1, 1, -1),
the third one is negative, and on the triangle (0,0,0), (1,0,0), (0,1,0) the position
returned is (1, -1, 0), outside the triangle. -/
theorem C2_negative_weight :
    (glibcEnv edgeDraws).draw 0 = 0 ∧ (glibcEnv edgeDraws).draw 1 = 1 ∧
    randPtBary (glibcEnv edgeDraws) 0 = ⟨1, 1, -1⟩ ∧
    (randPtBary (glibcEnv edgeDraws) 0).z < 0 ∧
    (unitTriangle.randPoint (glibcEnv edgeDraws) 0).pos = ⟨1, -1, 0⟩ := by
  refine ⟨glibc_draw_edge_zero, glibc_draw_edge_one, glibc_bary_edge,
    by rw [glibc_bary_edge]; norm_num, ?_⟩
  simp [Triangle.randPoint, glibc_bary_edge, mat3MulVec, Env.row, Env.fadd, Env.fmul,
    unitTriangle, glibc_fl, fl32_zero, fl32_one, fl32_neg_one]

/-- C3. In exact arithmetic the three weights of `Triangle::randPoint` are
`1 - sqrt(u1)`, `u2` and `1 - x - y`, they add up to exactly 1, and the position, the UV
and the normal returned are the combinations of the corners `(v1, v2, v3)`,
`(uv1, uv2, uv3)`, `(n1, n2, n3)` with these same weights. -/
theorem C3_weights_sum_one (E : Env) (t : Triangle) (k : ℕ) :
    (randPtBary E.exact k).x = 1 - E.sqrt (E.exact.draw k) ∧
    (randPtBary E.exact k).y = E.exact.draw (k + 1) ∧
    (randPtBary E.exact k).x + (randPtBary E.exact k).y + (randPtBary E.exact k).z = 1 ∧
    (t.randPoint E.exact k).pos =
      ((t.v1.smul (randPtBary E.exact k).x).add (t.v2.smul (randPtBary E.exact k).y)).add
        (t.v3.smul (randPtBary E.exact k).z) ∧
    (t.randPoint E.exact k).uv =
      ((t.uv1.smul (randPtBary E.exact k).x).add (t.uv2.smul (randPtBary E.exact k).y)).add
        (t.uv3.smul (randPtBary E.exact k).z) ∧
    (t.randPoint E.exact k).normal =
      ((t.n1.smul (randPtBary E.exact k).x).add (t.n2.smul (randPtBary E.exact k).y)).add
        (t.n3.smul (randPtBary E.exact k).z) := by
  refine ⟨rfl, rfl, ?_, ?_, ?_, ?_⟩
  · simp only [randPtBary, Env.fsub, Env.exact]; ring
  all_goals
    simp only [Triangle.randPoint, mat3MulVec, mat3x2MulVec, Env.row, Env.fadd, Env.fmul,
      Env.exact, Vec3.add, Vec3.smul, Vec2.add, Vec2.smul, Vec3.mk.injEq, Vec2.mk.injEq]
    constructorm* _ ∧ _ <;> ring

/-- C5 as stated fails: on the triangle of area 1/2 with density 3/2 and the draw
u = 0, the value d*A + u is 3/4, whose nearest integer is 1, and the constructor draws
0 candidate points. -/
theorem C5_not_nearest_integer :
    (3 / 2 : ℚ) * unitTriangle.area (glibcEnv fun _ => 0) + (glibcEnv fun _ => 0).draw 0
      = 3 / 4 ∧
    round ((3 / 2 : ℚ) * unitTriangle.area (glibcEnv fun _ => 0) +
      (glibcEnv fun _ => 0).draw 0) = 1 ∧
    numHairs (glibcEnv fun _ => 0) (3 / 2) (unitTriangle.area (glibcEnv fun _ => 0))
      ((glibcEnv fun _ => 0).draw 0) = 0 ∧
    (triangleCandidates (glibcEnv fun _ => 0) (3 / 2) unitTriangle 0).length = 0 := by
  have hn : numHairs (glibcEnv fun _ => 0) (3 / 2) (unitTriangle.area (glibcEnv fun _ => 0))
      ((glibcEnv fun _ => 0).draw 0) = 0 := by
    have h1 : (3 / 2 : ℚ) * (1 / 2) = 3 / 4 := by norm_num
    simp only [glibc_area_unit, glibc_draw_zero, numHairs, Env.fadd, Env.fmul, glibc_fl, h1,
      fl32_three_quarters, add_zero]
    rw [toInt_of_nonneg _ (by norm_num) (by norm_num)]
    norm_num
  refine ⟨?_, ?_, hn, ?_⟩
  · rw [glibc_area_unit, glibc_draw_zero]; norm_num
  · rw [glibc_area_unit, glibc_draw_zero, round_eq, Int.floor_eq_iff]; norm_num
  · simp [triangleCandidates, candidateCount, hn]

/-- C5, amended. For a triangle of area A >= 0, a density d >= 0 and a draw
u = rand()/RAND_MAX, when the `float` value of d*A + u (the product rounded, then the sum
rounded) is below 2^31, the hair count is that value rounded down to an integer, and the
constructor draws that many candidate points on the triangle: two calls of `rand()` for
each, after the one for the count. -/
theorem C5_count_is_floor (E : Env) (hE : E.IsRounding) (image : QImage) (d : ℚ)
    (t : Triangle) (hs : List Hair) (k : ℕ) (hd : 0 ≤ d) (hA : 0 ≤ t.area E)
    (hlt : E.fl (E.fl (d * t.area E) + E.draw k) < 2147483648) :
    numHairs E d (t.area E) (E.draw k) = ⌊E.fl (E.fl (d * t.area E) + E.draw k)⌋ ∧
    (triangleCandidates E d t k).length = ⌊E.fl (E.fl (d * t.area E) + E.draw k)⌋.toNat ∧
    (triangleBody E image d (hs, k) t).2 =
      k + 1 + 2 * ⌊E.fl (E.fl (d * t.area E) + E.draw k)⌋.toNat := by
  have hn : numHairs E d (t.area E) (E.draw k) = ⌊E.fl (E.fl (d * t.area E) + E.draw k)⌋ :=
    toInt_of_nonneg _
      (hE.nonneg _ (add_nonneg (hE.nonneg _ (mul_nonneg hd hA)) (draw_nonneg E hE k))) hlt
  refine ⟨hn, ?_, ?_⟩
  · simp [triangleCandidates, candidateCount, hn]
  · rw [triangleBody_eq]; simp [candidateCount, hn]

/-- Witness of C5 amended: density 7/2 on the triangle of area 1/2 with `rand() = 0`;
the value is 7/4 and the count is 1, where the nearest integer is 2. -/
theorem C5_count_is_floor_witness :
    (0 : ℚ) ≤ 7 / 2 ∧ 0 ≤ midTriangle.area (glibcEnv fun _ => 0) ∧
    ⌊(glibcEnv fun _ => 0).fl ((glibcEnv fun _ => 0).fl
      (7 / 2 * midTriangle.area (glibcEnv fun _ => 0)) + (glibcEnv fun _ => 0).draw 0)⌋ = 1 ∧
    numHairs (glibcEnv fun _ => 0) (7 / 2) (midTriangle.area (glibcEnv fun _ => 0))
      ((glibcEnv fun _ => 0).draw 0) = 1 ∧
    (triangleBody (glibcEnv fun _ => 0) whiteImage (7 / 2) ([], 0) midTriangle).2 = 3 := by
  have h1 : (7 / 2 : ℚ) * (1 / 2) = 7 / 4 := by norm_num
  have h2 : fl32 (7 / 4) = 7 / 4 := fl32_fix _ 7 (-2) (by norm_num) (by norm_num) (by norm_num)
  have hv : (glibcEnv fun _ => 0).fl ((glibcEnv fun _ => 0).fl
      (7 / 2 * midTriangle.area (glibcEnv fun _ => 0)) + (glibcEnv fun _ => 0).draw 0)
      = 7 / 4 := by
    simp only [glibc_area_mid, glibc_draw_zero, glibc_fl, h1, h2, add_zero]
  have hf : ⌊(glibcEnv fun _ => 0).fl ((glibcEnv fun _ => 0).fl
      (7 / 2 * midTriangle.area (glibcEnv fun _ => 0)) + (glibcEnv fun _ => 0).draw 0)⌋
      = 1 := by
    rw [hv, Int.floor_eq_iff]; norm_num
  have hA : 0 ≤ midTriangle.area (glibcEnv fun _ => 0) := by rw [glibc_area_mid]; norm_num
  have h := C5_count_is_floor (glibcEnv fun _ => 0) (glibc_isRounding _) whiteImage (7 / 2)
    midTriangle [] 0 (by norm_num) hA (by rw [hv]; norm_num)
  rw [hf] at h
  exact ⟨by norm_num, hA, hf, h.1, by simpa using h.2.2⟩

/-- C6. With a growth map that loads and whose every pixel has value 0, the growth-map
constructor returns an object without guide hairs, for every mesh, density and sequence
of random draws. -/
theorem C6_black_map_no_hairs (E : Env) (stale : ℤ) (mesh : ObjMesh) (d : ℚ)
    (image : QImage) (sim : Option ℕ) (old : Option HairObject) (himg : image.width ≠ 0)
    (hblack : ∀ p, image.valid p = true → (image.pixel p).value = 0) :
    ∃ o, HairObject.ofGrowthMap E stale mesh d image sim old = some o ∧
      o.m_guideHairs = [] := by
  obtain ⟨o, ho, -, hg⟩ := ofGrowthMap_guideHairs E stale mesh d image sim old himg
  refine ⟨o, ho, ?_⟩
  rw [hg, List.map_eq_nil_iff, List.filter_eq_nil_iff]
  intro s _ hs
  rw [accepted_iff] at hs
  exact hs.2 (hblack _ hs.1)

/-- Witness of C6: the black two-by-two map on a mesh of one triangle that has one
candidate point. -/
theorem C6_black_map_no_hairs_witness :
    blackImage.width ≠ 0 ∧
    (candidates (glibcEnv fun _ => 0) 2 [midTriangle] 0).length = 1 ∧
    ∃ o, HairObject.ofGrowthMap (glibcEnv fun _ => 0) 0 ⟨[midTriangle]⟩ 2 blackImage none
        none = some o ∧ o.m_guideHairs = [] :=
  ⟨by decide, by simp [candidates, triangleCandidates, glibc_count_mid],
    C6_black_map_no_hairs (glibcEnv fun _ => 0) 0 ⟨[midTriangle]⟩ 2 blackImage none none
      (by decide) (fun _ _ => rfl)⟩

/-- C7 as stated fails, in two ways. On a triangle whose three corners coincide (area
0), when the draw for the hair count is `rand() = RAND_MAX`, that is u = 1, the count is
1 and, the growth map being white, one guide hair is appended. On the triangle
`sliverTriangle`, whose corners are on one line, the area computed in `float` is 2^-23,
not 0, and with the density 2^23 and `rand() = 0`, that is u = 0, the count is 1 and one
guide hair is appended. -/
theorem C7_hair_on_degenerate_triangle :
    (pointTriangle.degenerate ∧
    pointTriangle.area (glibcEnv fun _ => 2147483647) = 0 ∧
    (glibcEnv fun _ => 2147483647).draw 0 = 1 ∧
    triangleBody (glibcEnv fun _ => 2147483647) whiteImage 40 ([], 0) pointTriangle =
      ([grownHair (pointTriangle.randPoint (glibcEnv fun _ => 2147483647) 1)], 3)) ∧
    (sliverTriangle.degenerate ∧
    sliverTriangle.area (glibcEnv fun _ => 0) = 1 / 8388608 ∧
    (glibcEnv fun _ => 0).draw 0 = 0 ∧
    triangleBody (glibcEnv fun _ => 0) whiteImage 8388608 ([], 0) sliverTriangle =
      ([grownHair (sliverTriangle.randPoint (glibcEnv fun _ => 0) 1)], 3)) := by
  refine ⟨⟨Or.inl rfl, glibc_area_point _, glibc_draw_one 0, ?_⟩,
    ⟨sliver_degenerate, glibc_area_sliver _, glibc_draw_zero 0, ?_⟩⟩
  · have hc : candidateCount (glibcEnv fun _ => 2147483647) 40 pointTriangle 0 = 1 := by
      simp [candidateCount, glibc_area_point, glibc_draw_one, numHairs, toInt, Env.fadd,
        Env.fmul, glibc_fl, fl32_zero, fl32_one]
      norm_num
    rw [triangleBody_eq, triangleCandidates, hc, range_one]
    simp [glibc_accepted_white _ _ (glibc_uv_point_one _)]
  · rw [triangleBody_eq, triangleCandidates, glibc_count_sliver, range_one]
    simp [glibc_accepted_white _ _ (glibc_uv_sliver_zero _)]

/-- C7, amended. On a triangle whose `Triangle::area()` is 0 (as it is when corners
coincide), for every density and growth map and every draw
u = rand() / (float) RAND_MAX below 1, the hair count is 0 and the constructor adds no
guide hair for the triangle: the list is unchanged and only the draw for the count is
consumed. The rounding to `float` is any that fixes 0, is idempotent and keeps the
sign. -/
theorem C7_degenerate_no_hair (E : Env) (hE : E.IsRounding) (image : QImage) (d : ℚ)
    (t : Triangle) (hA : t.area E = 0) (hs : List Hair) (k : ℕ) (hu : E.draw k < 1) :
    numHairs E d (t.area E) (E.draw k) = 0 ∧
    triangleBody E image d (hs, k) t = (hs, k + 1) := by
  have hn : numHairs E d (t.area E) (E.draw k) = 0 := by
    simp only [numHairs, Env.fadd, Env.fmul, hA, mul_zero, hE.zero, zero_add,
      draw_idem E hE k]
    rw [toInt_of_nonneg _ (draw_nonneg E hE k) (by linarith)]
    exact Int.floor_eq_zero_iff.mpr ⟨draw_nonneg E hE k, hu⟩
  refine ⟨hn, ?_⟩
  have hc : candidateCount E d t k = 0 := by simp [candidateCount, hn]
  rw [triangleBody_eq, triangleCandidates, hc]
  simp

/-- Witness of C7 amended: the triangle with coincident corners, `rand() = 0`. -/
theorem C7_degenerate_no_hair_witness :
    pointTriangle.area (glibcEnv fun _ => 0) = 0 ∧
    (glibcEnv fun _ => 0).draw 0 < 1 ∧
    numHairs (glibcEnv fun _ => 0) 40 (pointTriangle.area (glibcEnv fun _ => 0))
      ((glibcEnv fun _ => 0).draw 0) = 0 ∧
    triangleBody (glibcEnv fun _ => 0) whiteImage 40 ([], 0) pointTriangle = ([], 1) :=
  ⟨glibc_area_point _, by rw [glibc_draw_zero]; norm_num,
    C7_degenerate_no_hair (glibcEnv fun _ => 0) (glibc_isRounding _) whiteImage 40
      pointTriangle (glibc_area_point _) [] 0 (by rw [glibc_draw_zero]; norm_num)⟩

/-- C8. The texel the constructor looks up for a sample is
`(uv.x * width, (1 - uv.y) * height)` computed in `float` from the UV clamped to 0.999f
and converted to `int`. One iteration of the inner loop appends exactly the hair
`Hair(20, 0.4, pos, normal)` when that texel is inside the growth map and the growth
value there is not zero, and appends nothing otherwise; either way it goes on. The
constructor returns an object whose guide hairs are the hairs of the accepted
candidates, in candidate order, so their number is the number of accepted candidates. -/
theorem C8_accept_iff (E : Env) (stale : ℤ) (mesh : ObjMesh) (d : ℚ) (image : QImage)
    (sim : Option ℕ) (old : Option HairObject) (himg : image.width ≠ 0) :
    (∀ uv : Vec2, texel E image (clampUV E uv) =
      ⟨toInt (E.fl (min uv.x (E.fl (999 / 1000)) * E.fl (image.width : ℚ))),
       toInt (E.fl (E.fl (1 - min uv.y (E.fl (999 / 1000))) * E.fl (image.height : ℚ)))⟩) ∧
    (∀ s : Sample, accepted E image s = true ↔
      (0 ≤ (texel E image (clampUV E s.uv)).x ∧
        (texel E image (clampUV E s.uv)).x < image.width ∧
        0 ≤ (texel E image (clampUV E s.uv)).y ∧
        (texel E image (clampUV E s.uv)).y < image.height) ∧
      (image.pixel (texel E image (clampUV E s.uv))).value ≠ 0) ∧
    (∀ (t : Triangle) (hs : List Hair) (k : ℕ),
      hairBody E image t (hs, k) =
        if accepted E image (t.randPoint E k) = true then
          (hs ++ [⟨20, 2 / 5, (t.randPoint E k).pos, (t.randPoint E k).normal⟩], k + 2)
        else (hs, k + 2)) ∧
    ∃ o, HairObject.ofGrowthMap E stale mesh d image sim old = some o ∧
      o.m_guideHairs =
        ((candidates E d mesh.triangles 0).filter (accepted E image)).map
          (fun s => ⟨20, 2 / 5, s.pos, s.normal⟩) ∧
      o.m_guideHairs.length =
        (candidates E d mesh.triangles 0).countP (accepted E image) := by
  refine ⟨fun uv => ?_, fun s => ?_, fun t hs k => hairBody_eq E image t (hs, k), ?_⟩
  · simp only [texel, clampUV, MIN_eq_min, Env.fmul, Env.fsub, Env.ofInt, Int.cast_natCast]
  · rw [accepted_iff, valid_iff]
  · obtain ⟨o, ho, -, hg⟩ := ofGrowthMap_guideHairs E stale mesh d image sim old himg
    refine ⟨o, ho, hg, ?_⟩
    rw [hg, List.length_map, List.countP_eq_length_filter]

/-- Witness of C8: the two-by-two map whose only white pixel is (1, 0), on a mesh of
one triangle with the UV (1, 1) at every corner. The UV of the one candidate is clamped
to (0.999f, 0.999f), its texel is (1, 0), and the hair is appended. -/
theorem C8_accept_iff_witness :
    cornerImage.width ≠ 0 ∧
    texel (glibcEnv fun _ => 0) cornerImage (clampUV (glibcEnv fun _ => 0) ⟨1, 1⟩) = ⟨1, 0⟩ ∧
    ∃ o, HairObject.ofGrowthMap (glibcEnv fun _ => 0) 0 ⟨[cornerTriangle]⟩ 2 cornerImage none
        none = some o ∧
      o.m_guideHairs = [⟨20, 2 / 5, ⟨0, 0, 0⟩, ⟨0, 0, 1⟩⟩] := by
  have h := C8_accept_iff (glibcEnv fun _ => 0) 0 ⟨[cornerTriangle]⟩ 2 cornerImage none none
    (by decide)
  refine ⟨by decide, ?_, ?_⟩
  · exact (texel_clampUV _ cornerImage ⟨⟨0, 0, 0⟩, ⟨1, 1⟩, ⟨0, 0, 0⟩⟩).trans
      (glibc_texel_corner _ _ rfl)
  · obtain ⟨o, ho, hg, -⟩ := h.2.2.2
    refine ⟨o, ho, ?_⟩
    rw [hg]
    simp [candidates, triangleCandidates, glibc_count_corner, range_one,
      glibc_accepted_corner _ _ (glibc_uv_corner_zero _)]
    simp [Triangle.randPoint, glibc_bary_zero, mat3MulVec, Env.row, Env.fadd, Env.fmul,
      cornerTriangle, unitTriangle, glibc_fl, fl32_zero, fl32_one]

/-- C9 fails on a prior object built by the growth-map constructor, which never assigns
`m_numGuideHairs`: whatever value `stale` that member holds, the one-triangle mesh gives
a prior object with one guide hair and the empty mesh one with none, and the copy of
either has `stale` guide hairs (none when `stale` is negative); with `stale = 0` the
copy of the one-hair object has no hair. -/
theorem C9_copy_of_grown_object :
    (∀ stale : ℤ,
      (∃ old, HairObject.ofGrowthMap (glibcEnv fun _ => 0) stale ⟨[midTriangle]⟩ 2 whiteImage
          none none = some old ∧ old.m_guideHairs.length = 1 ∧
        (HairObject.ofOld (glibcEnv fun _ => 0) old none).m_guideHairs.length = stale.toNat) ∧
      (∃ old, HairObject.ofGrowthMap (glibcEnv fun _ => 0) stale ⟨[]⟩ 2 whiteImage
          none none = some old ∧ old.m_guideHairs.length = 0 ∧
        (HairObject.ofOld (glibcEnv fun _ => 0) old none).m_guideHairs.length = stale.toNat)) ∧
    ∃ old, HairObject.ofGrowthMap (glibcEnv fun _ => 0) 0 ⟨[midTriangle]⟩ 2 whiteImage
        none none = some old ∧ old.m_guideHairs.length = 1 ∧
      (HairObject.ofOld (glibcEnv fun _ => 0) old none).m_guideHairs.length = 0 := by
  have key : ∀ stale : ℤ,
      (∃ old, HairObject.ofGrowthMap (glibcEnv fun _ => 0) stale ⟨[midTriangle]⟩ 2 whiteImage
          none none = some old ∧ old.m_guideHairs.length = 1 ∧
        (HairObject.ofOld (glibcEnv fun _ => 0) old none).m_guideHairs.length = stale.toNat) ∧
      (∃ old, HairObject.ofGrowthMap (glibcEnv fun _ => 0) stale ⟨[]⟩ 2 whiteImage
          none none = some old ∧ old.m_guideHairs.length = 0 ∧
        (HairObject.ofOld (glibcEnv fun _ => 0) old none).m_guideHairs.length = stale.toNat) := by
    intro stale
    constructor
    · obtain ⟨o, ho, hn, hg⟩ := ofGrowthMap_guideHairs (glibcEnv fun _ => 0) stale
        ⟨[midTriangle]⟩ 2 whiteImage none none (by decide)
      refine ⟨o, ho, ?_, ?_⟩
      · rw [hg]
        simp [candidates, triangleCandidates, glibc_count_mid, range_one,
          glibc_accepted_white _ _ (glibc_uv_mid_zero _)]
      · rw [ofOld_guideHairs, defaultHairs_length, hn]
    · obtain ⟨o, ho, hn, hg⟩ := ofGrowthMap_guideHairs (glibcEnv fun _ => 0) stale
        ⟨[]⟩ 2 whiteImage none none (by decide)
      refine ⟨o, ho, ?_, ?_⟩
      · rw [hg]; rfl
      · rw [ofOld_guideHairs, defaultHairs_length, hn]
  exact ⟨key, (key 0).1⟩

/-- C10 fails on the same draws as C2 (`rand()` returns 0, then `RAND_MAX`): on a
triangle with corner UVs (0,0), (1,0), (0,1), all in [0,1], `Triangle::randPoint`
returns the UV (1, -1) and the clamp, which only bounds from above, gives (0.999f, -1),
whose second component is below 0; 0.999f is 16760439 / 2^24. -/
theorem C10_clamped_uv_negative :
    (unitTriangle.uv1 = ⟨0, 0⟩ ∧ unitTriangle.uv2 = ⟨1, 0⟩ ∧ unitTriangle.uv3 = ⟨0, 1⟩) ∧
    (glibcEnv edgeDraws).draw 0 = 0 ∧ (glibcEnv edgeDraws).draw 1 = 1 ∧
    (unitTriangle.randPoint (glibcEnv edgeDraws) 0).uv = ⟨1, -1⟩ ∧
    clampUV (glibcEnv edgeDraws) (unitTriangle.randPoint (glibcEnv edgeDraws) 0).uv =
      ⟨16760439 / 16777216, -1⟩ ∧
    (clampUV (glibcEnv edgeDraws) (unitTriangle.randPoint (glibcEnv edgeDraws) 0).uv).y < 0 := by
  have huv : (unitTriangle.randPoint (glibcEnv edgeDraws) 0).uv = ⟨1, -1⟩ := by
    simp [Triangle.randPoint, glibc_bary_edge, mat3x2MulVec, Env.row, Env.fadd, Env.fmul,
      unitTriangle, glibc_fl, fl32_zero, fl32_one, fl32_neg_one]
  have hc : clampUV (glibcEnv edgeDraws) (unitTriangle.randPoint (glibcEnv edgeDraws) 0).uv =
      ⟨16760439 / 16777216, -1⟩ := by
    rw [huv]; simp only [clampUV, MIN, glibc_fl, fl32_999]; norm_num
  exact ⟨⟨rfl, rfl, rfl⟩, glibc_draw_edge_zero, glibc_draw_edge_one, huv, hc,
    by rw [hc]; norm_num⟩

end HairSim
